import Mathlib

set_option maxHeartbeats 1000000

/-!
Verification development for the credential-hashing and signed-token core of
the rust-web-app repository.

The `src/` tree of this snapshot contains the error enums of the `lib-auth`
crate (`pwd/error.rs`, `pwd/scheme/error.rs`, `token/error.rs`) and the
web-server glue (`conv_rpc.rs`, `routes_ws.rs`), but not the bodies of the
password-scheme and token modules themselves.  Those bodies are modelled from
the specification (spec.md sections 3 and 4), as marked on each definition;
the error types are embedded from the source files, and the `add_conv_msg` /
`WsState::broadcast` handlers are embedded from the web-server sources.
-/

/-- Embedded from src/crates/libs/lib-auth/src/pwd/scheme/error.rs (enum Error). -/
inductive SchemeError where
  | Key
  | Salt
  | Hash
  | PwdValidate
  | SchemeNotFound (id : String)

deriving instance DecidableEq for SchemeError

/-- Embedded from src/crates/libs/lib-auth/src/pwd/error.rs (enum Error). -/
inductive PwdError where
  | PwdWithSchemeFailedParse
  | FailSpawnBlockForValidate
  | FailSpawnBlockForHash
  | Scheme (e : SchemeError)

deriving instance DecidableEq for PwdError

/-- Modelled from the spec: SchemeStatus is `Ok` or `Outdated(current_scheme_id)` (spec section 3). -/
inductive SchemeStatus where
  | Ok
  | Outdated (currentId : String)

deriving instance DecidableEq for SchemeStatus

/-- Modelled from the spec: ContentToHash holds the plaintext and the per-credential salt (spec section 3). -/
structure ContentToHash where
  content : String
  salt : String

deriving instance DecidableEq for ContentToHash

/-- Modelled from the spec: the closed set of registered schemes, a legacy scheme with id "01" and the current scheme with id "02" (spec section 4.1). -/
inductive SchemeKind where
  | scheme01
  | scheme02

deriving instance DecidableEq for SchemeKind

def schemeIdOf : SchemeKind → String
  | .scheme01 => "01"
  | .scheme02 => "02"

/-- Modelled from the spec: registry lookup; an unknown id fails with `SchemeNotFound(id)`, never a silent fallback (spec sections 4.1 and 9). -/
def getScheme (id : String) : Except SchemeError SchemeKind :=
  if id = "01" then .ok .scheme01
  else if id = "02" then .ok .scheme02
  else .error (.SchemeNotFound id)

def CURRENT_SCHEME : SchemeKind := .scheme02

def CURRENT_ID : String := "02"

/-- Modelled from the spec: each scheme's digest routine (the concrete hmac-sha512 resp. argon2 code is absent from src/) abstracted as a scheme-tagged encoding of salt and plaintext, injective in the plaintext for a fixed salt. -/
def schemeHash : SchemeKind → ContentToHash → String
  | .scheme01, c => "v1-" ++ c.salt ++ "-" ++ c.content
  | .scheme02, c => "v2-" ++ c.salt ++ "-" ++ c.content

/-- Modelled from the spec: scheme-level validation re-hashes the content and compares with the reference digest; a mismatch is the error `PwdValidate` (spec section 4.2). -/
def schemeValidate (k : SchemeKind) (c : ContentToHash) (refDigest : String) :
    Except SchemeError Unit :=
  if schemeHash k c = refDigest then .ok () else .error .PwdValidate

/-- Modelled from the spec: the registry owns the `"{scheme_id}_{payload}"` prefixing convention for stored hashes (spec sections 3 and 4.1). -/
def hashForScheme (k : SchemeKind) (c : ContentToHash) : String :=
  schemeIdOf k ++ "_" ++ schemeHash k c

/-- Modelled from the spec: `hash_password` always selects the current scheme (spec sections 4.2 and 6). -/
def hash_password (c : ContentToHash) : String :=
  hashForScheme CURRENT_SCHEME c

/-- Split a character list at its first underscore. -/
def splitFirstUnderscore : List Char → Option (List Char × List Char)
  | [] => none
  | c :: rest =>
    if c = '_' then some ([], rest)
    else
      match splitFirstUnderscore rest with
      | some (a, b) => some (c :: a, b)
      | none => none

/-- Modelled from the spec: parse the leading scheme id out of a stored hash `"{scheme_id}_{payload}"`; failure is `PwdWithSchemeFailedParse` (pwd/error.rs). -/
def parseSchemeId (s : String) : Except PwdError (String × String) :=
  match splitFirstUnderscore s.data with
  | some (idc, restc) => .ok (⟨idc⟩, ⟨restc⟩)
  | none => .error .PwdWithSchemeFailedParse

/-- Modelled from the spec: `validate_password` parses the leading scheme id, fails with `SchemeNotFound` when unknown, then dispatches the scheme's validate routine on a worker; dispatch failure (`dispatchOk = false`) is the distinct error `FailSpawnBlockForValidate` (spec section 4.2). On a match it returns `Ok(Ok)` when the reference's id is current, else `Ok(Outdated(current_id))`. -/
def validate_password_dispatch (dispatchOk : Bool) (c : ContentToHash)
    (refHash : String) : Except PwdError SchemeStatus :=
  match parseSchemeId refHash with
  | .error e => .error e
  | .ok (id, payload) =>
    match getScheme id with
    | .error e => .error (.Scheme e)
    | .ok k =>
      if dispatchOk then
        match schemeValidate k c payload with
        | .error e => .error (.Scheme e)
        | .ok _ => if id = CURRENT_ID then .ok .Ok else .ok (.Outdated CURRENT_ID)
      else .error .FailSpawnBlockForValidate

/-- Modelled from the spec: `validate_password` on the happy dispatch path. -/
def validate_password (c : ContentToHash) (refHash : String) :
    Except PwdError SchemeStatus :=
  validate_password_dispatch true c refHash

/-- Modelled from the spec: `hash_password` dispatched on a worker; dispatch failure is the distinct error `FailSpawnBlockForHash` (spec section 4.2). -/
def hash_password_dispatch (dispatchOk : Bool) (c : ContentToHash) :
    Except PwdError String :=
  if dispatchOk then .ok (hash_password c) else .error .FailSpawnBlockForHash

-- String and split helper lemmas

theorem string_data_append (a b : String) : (a ++ b).data = a.data ++ b.data := by
  cases a
  cases b
  rfl

theorem string_eq_of_data {a b : String} (h : a.data = b.data) : a = b := by
  cases a
  cases b
  exact congrArg String.mk h

theorem string_mk_data (s : String) : String.mk s.data = s := by
  cases s
  rfl

theorem splitFirstUnderscore_append (pre rest : List Char) (h : '_' ∉ pre) :
    splitFirstUnderscore (pre ++ '_' :: rest) = some (pre, rest) := by
  induction pre with
  | nil => simp [splitFirstUnderscore]
  | cons c cs ih =>
    have hc : c ≠ '_' := by
      intro e
      exact h (e ▸ List.mem_cons_self _ _)
    have hcs : '_' ∉ cs := fun m => h (List.mem_cons_of_mem _ m)
    simp [splitFirstUnderscore, hc, ih hcs]

theorem parseSchemeId_prefixed (id payload : String) (h : '_' ∉ id.data) :
    parseSchemeId (id ++ "_" ++ payload) = .ok (id, payload) := by
  have hu : ("_" : String).data = ['_'] := rfl
  have hdata : (id ++ "_" ++ payload).data = id.data ++ '_' :: payload.data := by
    simp [string_data_append, hu]
  simp [parseSchemeId, hdata, splitFirstUnderscore_append _ _ h, string_mk_data]

theorem validate_hash_current (c : ContentToHash) :
    validate_password c (hash_password c) = .ok SchemeStatus.Ok := by
  have hid : '_' ∉ ("02" : String).data := by decide
  have hget : getScheme "02" = .ok .scheme02 := rfl
  have hcur : (("02" : String) = CURRENT_ID) = True := by simp [CURRENT_ID]
  unfold validate_password validate_password_dispatch hash_password hashForScheme
  rw [show schemeIdOf CURRENT_SCHEME = "02" from rfl]
  rw [parseSchemeId_prefixed _ _ hid]
  simp [hget, schemeValidate, hcur, CURRENT_SCHEME]

/-- Claim C1: for every registered scheme id and any password with its salt, validating the password against the stored hash produced by `hash_password` (which always uses the current scheme) returns `Ok(SchemeStatus.Ok)`. -/
theorem claim1_validate_of_hash_ok :
    ∀ (_s : SchemeKind) (c : ContentToHash),
      validate_password c (hash_password c) = .ok SchemeStatus.Ok := by
  intro _s c
  exact validate_hash_current c

theorem schemeHash_inj_content (k : SchemeKind) (c1 c2 : ContentToHash)
    (hsalt : c1.salt = c2.salt) (h : schemeHash k c1 = schemeHash k c2) :
    c1.content = c2.content := by
  apply string_eq_of_data
  have hd := congrArg String.data h
  cases k <;>
    simp only [schemeHash, string_data_append, hsalt, List.append_assoc] at hd <;>
    exact List.append_cancel_left (List.append_cancel_left (List.append_cancel_left hd))

/-- Claim C2: for distinct passwords sharing a salt, validating the second against the stored hash of the first is always an error (the scheme error `PwdValidate`), never `Ok`. -/
theorem claim2_wrong_pwd_error (c1 c2 : ContentToHash)
    (hsalt : c1.salt = c2.salt) (hne : c1.content ≠ c2.content) :
    validate_password c2 (hash_password c1) = .error (.Scheme .PwdValidate) := by
  have hid : '_' ∉ ("02" : String).data := by decide
  have hget : getScheme "02" = .ok .scheme02 := rfl
  have hne2 : schemeHash .scheme02 c2 ≠ schemeHash .scheme02 c1 := by
    intro h
    exact hne ((schemeHash_inj_content .scheme02 c2 c1 hsalt.symm h).symm)
  unfold validate_password validate_password_dispatch hash_password hashForScheme
  rw [show schemeIdOf CURRENT_SCHEME = "02" from rfl]
  rw [parseSchemeId_prefixed _ _ hid]
  simp [hget, schemeValidate, CURRENT_SCHEME, hne2]

theorem claim2_wrong_pwd_error_witness :
    validate_password ⟨"p2", "s"⟩ (hash_password ⟨"p1", "s"⟩) =
      .error (.Scheme .PwdValidate) :=
  claim2_wrong_pwd_error ⟨"p1", "s"⟩ ⟨"p2", "s"⟩ rfl (by decide)

/-- Claim C5: a correct password validated against a stored hash whose leading scheme id is registered but not current yields `Ok(Outdated(current_id))`, a success outcome carrying the current scheme id. -/
theorem claim5_outdated_success (k : SchemeKind) (c : ContentToHash)
    (h : schemeIdOf k ≠ CURRENT_ID) :
    validate_password c (hashForScheme k c) = .ok (.Outdated CURRENT_ID) := by
  cases k
  · have hid : '_' ∉ ("01" : String).data := by decide
    have hget : getScheme "01" = .ok .scheme01 := rfl
    have hcur : ("01" : String) ≠ CURRENT_ID := by decide
    unfold validate_password validate_password_dispatch hashForScheme
    rw [show schemeIdOf SchemeKind.scheme01 = "01" from rfl]
    rw [parseSchemeId_prefixed _ _ hid]
    simp [hget, schemeValidate, hcur]
  · exact absurd rfl h

theorem claim5_outdated_success_witness :
    validate_password ⟨"p", "s"⟩ (hashForScheme .scheme01 ⟨"p", "s"⟩) =
      .ok (.Outdated CURRENT_ID) :=
  claim5_outdated_success .scheme01 ⟨"p", "s"⟩ (by decide)

/-- Claim C8: a stored hash whose leading scheme id is not registered fails with `SchemeNotFound` carrying exactly that id; no fallback scheme is used. -/
theorem claim8_scheme_not_found (c : ContentToHash) (id payload : String)
    (hu : '_' ∉ id.data) (h1 : id ≠ "01") (h2 : id ≠ "02") :
    validate_password c (id ++ "_" ++ payload) =
      .error (.Scheme (.SchemeNotFound id)) := by
  unfold validate_password validate_password_dispatch
  rw [parseSchemeId_prefixed _ _ hu]
  simp [getScheme, h1, h2]

theorem claim8_scheme_not_found_witness :
    validate_password ⟨"p", "s"⟩ ("99" ++ "_" ++ "xyz") =
      .error (.Scheme (.SchemeNotFound "99")) :=
  claim8_scheme_not_found ⟨"p", "s"⟩ "99" "xyz" (by decide) (by decide) (by decide)

/-- Claim C9: worker-dispatch failure during hashing and during validation surface as the two distinct typed errors `FailSpawnBlockForHash` and `FailSpawnBlockForValidate`, each returned directly to the caller (no retry in the model), and neither coincides with any scheme-level error such as a password mismatch or an unknown scheme id. -/
theorem claim9_dispatch_errors :
    (∀ c : ContentToHash,
      hash_password_dispatch false c = .error .FailSpawnBlockForHash) ∧
    (∀ (c : ContentToHash) (id payload : String), '_' ∉ id.data →
      (id = "01" ∨ id = "02") →
      validate_password_dispatch false c (id ++ "_" ++ payload) =
        .error .FailSpawnBlockForValidate) ∧
    PwdError.FailSpawnBlockForHash ≠ PwdError.FailSpawnBlockForValidate ∧
    (∀ e : SchemeError, PwdError.FailSpawnBlockForHash ≠ .Scheme e ∧
      PwdError.FailSpawnBlockForValidate ≠ .Scheme e) := by
  refine ⟨fun _ => rfl, ?_, by decide,
    fun e => ⟨fun h => PwdError.noConfusion h, fun h => PwdError.noConfusion h⟩⟩
  intro c id payload hu hr
  unfold validate_password_dispatch
  rw [parseSchemeId_prefixed _ _ hu]
  rcases hr with h | h <;> subst h <;> rfl

theorem claim9_dispatch_errors_witness :
    validate_password_dispatch false ⟨"p", "s"⟩ ("01" ++ "_" ++ "x") =
      .error .FailSpawnBlockForValidate :=
  claim9_dispatch_errors.2.1 ⟨"p", "s"⟩ "01" "x" (by decide) (Or.inl rfl)

-- Token model

/-- Embedded from src/crates/libs/lib-auth/src/token/error.rs (enum Error). -/
inductive TokenError where
  | HmacFailNewFromSlice
  | InvalidFormat
  | CannotDecodeIdent
  | CannotDecodeExp
  | SignatureNotMatching
  | ExpNotIso
  | Expired

deriving instance DecidableEq for TokenError

/-- Modelled from the spec: the url-safe base64 alphabet used for the three token segments (spec section 4.3). -/
def b64Alphabet : List Char :=
  ['A', 'B', 'C', 'D', 'E', 'F', 'G', 'H', 'I', 'J', 'K', 'L', 'M',
   'N', 'O', 'P', 'Q', 'R', 'S', 'T', 'U', 'V', 'W', 'X', 'Y', 'Z',
   'a', 'b', 'c', 'd', 'e', 'f', 'g', 'h', 'i', 'j', 'k', 'l', 'm',
   'n', 'o', 'p', 'q', 'r', 's', 't', 'u', 'v', 'w', 'x', 'y', 'z',
   '0', '1', '2', '3', '4', '5', '6', '7', '8', '9', '-', '_']

def b64Char (i : Nat) : Char := b64Alphabet.getD i 'A'

def b64IndexAux : List Char → Nat → Char → Option Nat
  | [], _, _ => none
  | a :: rest, i, c => if a = c then some i else b64IndexAux rest (i + 1) c

def b64Index (c : Char) : Option Nat := b64IndexAux b64Alphabet 0 c

/-- Modelled from the spec: url-safe base64 encoding (no padding) of a byte list. -/
def b64uEncode : List Nat → List Char
  | [] => []
  | [b1] => [b64Char (b1 / 4), b64Char (b1 % 4 * 16)]
  | [b1, b2] =>
    [b64Char (b1 / 4), b64Char (b1 % 4 * 16 + b2 / 16), b64Char (b2 % 16 * 4)]
  | b1 :: b2 :: b3 :: rest =>
    b64Char (b1 / 4) :: b64Char (b1 % 4 * 16 + b2 / 16) ::
      b64Char (b2 % 16 * 4 + b3 / 64) :: b64Char (b3 % 64) :: b64uEncode rest

/-- Modelled from the spec: url-safe base64 decoding; any character outside the alphabet, or a leftover of one character, fails. -/
def b64uDecode : List Char → Option (List Nat)
  | [] => some []
  | [c1, c2] =>
    match b64Index c1, b64Index c2 with
    | some i1, some i2 => some [i1 * 4 + i2 / 16]
    | _, _ => none
  | [c1, c2, c3] =>
    match b64Index c1, b64Index c2, b64Index c3 with
    | some i1, some i2, some i3 =>
      some [i1 * 4 + i2 / 16, i2 % 16 * 16 + i3 / 4]
    | _, _, _ => none
  | c1 :: c2 :: c3 :: c4 :: rest =>
    match b64Index c1, b64Index c2, b64Index c3, b64Index c4, b64uDecode rest with
    | some i1, some i2, some i3, some i4, some bs =>
      some ((i1 * 4 + i2 / 16) :: (i2 % 16 * 16 + i3 / 4) :: (i3 % 4 * 64 + i4) :: bs)
    | _, _, _, _, _ => none
  | _ => none

-- Decimal timestamp codec over byte lists

def digitByte (d : Nat) : Nat := 48 + d

def digitVal (b : Nat) : Option Nat :=
  if 48 ≤ b ∧ b ≤ 57 then some (b - 48) else none

def natRenderFuel : Nat → Nat → List Nat
  | 0, _ => []
  | fuel + 1, n =>
    if n < 10 then [digitByte n]
    else natRenderFuel fuel (n / 10) ++ [digitByte (n % 10)]

def natRender (n : Nat) : List Nat := natRenderFuel (n + 1) n

def digitsParseAux : List Nat → Nat → Option Nat
  | [], acc => some acc
  | b :: bs, acc =>
    match digitVal b with
    | some d => digitsParseAux bs (acc * 10 + d)
    | none => none

def natParse : List Nat → Option Nat
  | [] => none
  | bs => digitsParseAux bs 0

/-- Modelled from the spec: the expiration is carried as a fixed-format textual timestamp; here a signed decimal count of seconds, rendered as bytes (spec section 4.3). -/
def tsRender (t : Int) : List Nat :=
  (if 0 ≤ t then 43 else 45) :: natRender t.natAbs

/-- Modelled from the spec: parse the fixed-format timestamp; any other shape fails (surfaced as `ExpNotIso`). -/
def tsParse : List Nat → Option Int
  | 43 :: bs => (natParse bs).map fun n => (n : Int)
  | 45 :: bs => (natParse bs).map fun n => -(n : Int)
  | _ => none

/-- Modelled from the spec: split the token text on the fixed delimiter character (spec section 4.3). -/
def splitDots : List Char → List (List Char)
  | [] => [[]]
  | c :: rest =>
    if c = '.' then [] :: splitDots rest
    else
      match splitDots rest with
      | s :: ss => (c :: s) :: ss
      | [] => [[c]]

def charsBytes (cs : List Char) : List Nat := cs.map Char.toNat

def macStep (a b : Nat) : Nat := (a * 131 + b + 17) % 256

/-- Modelled from the spec: the keyed MAC (hmac-sha512 in the real crate, absent from src/) abstracted as an executable keyed digest of the message bytes. -/
def macModel (key msg : List Nat) : List Nat :=
  [msg.foldl macStep (key.foldl macStep 7), msg.length % 256]

/-- Modelled from the spec: the signature is the keyed MAC over `segment1_b64 || delimiter || segment2_b64 || delimiter || pepper` (spec section 4.3). -/
def signToken (key pepper : List Nat) (seg1 seg2 : List Char) : List Nat :=
  macModel key (charsBytes seg1 ++ 46 :: charsBytes seg2 ++ 46 :: pepper)

/-- Modelled from the spec: `generate_token` sets expiration to now + ttl, signs, and assembles the three dot-separated url-safe base64 segments (spec section 4.3). -/
def generate_token (key pepper ident : List Nat) (ttl now : Int) : List Char :=
  b64uEncode ident ++ '.' :: b64uEncode (tsRender (now + ttl)) ++
    '.' :: b64uEncode (signToken key pepper (b64uEncode ident)
      (b64uEncode (tsRender (now + ttl))))

/-- Modelled from the spec: structural parse of a token text, in order - split into exactly 3 non-empty segments else `InvalidFormat`, base64-decode the identifier else `CannotDecodeIdent`, base64-decode the expiration else `CannotDecodeExp`, parse it as the timestamp format else `ExpNotIso`, keep the signature segment opaque (spec section 4.3). -/
def parse_token (cs : List Char) :
    Except TokenError (List Nat × Int × List Char × List Char × List Char) :=
  match splitDots cs with
  | [s1, s2, s3] =>
    if s1 = [] ∨ s2 = [] ∨ s3 = [] then .error .InvalidFormat
    else
      match b64uDecode s1 with
      | none => .error .CannotDecodeIdent
      | some ident =>
        match b64uDecode s2 with
        | none => .error .CannotDecodeExp
        | some expBytes =>
          match tsParse expBytes with
          | none => .error .ExpNotIso
          | some exp => .ok (ident, exp, s1, s2, s3)
  | _ => .error .InvalidFormat

/-- Modelled from the spec: `validate_token` runs the structural parse, then recomputes and compares the signature (mismatch is `SignatureNotMatching`, checked before expiry), then compares now with the expiration (`Expired` only when now is strictly later) (spec section 4.3). -/
def validate_token (key pepper : List Nat) (tokenText : List Char) (now : Int) :
    Except TokenError Unit :=
  match parse_token tokenText with
  | .error e => .error e
  | .ok (_ident, exp, s1, s2, s3) =>
    if b64uEncode (signToken key pepper s1 s2) = s3 then
      if exp < now then .error .Expired else .ok ()
    else .error .SignatureNotMatching

-- Base64 lemmas

theorem b64Index_b64Char : ∀ i, i < 64 → b64Index (b64Char i) = some i := by
  decide

theorem b64Char_ne_dot (i : Nat) : b64Char i ≠ '.' := by
  by_cases h : i < 64
  · exact (by decide : ∀ j, j < 64 → b64Char j ≠ '.') i h
  · have hd : b64Char i = 'A' := by
      unfold b64Char
      apply List.getD_eq_default
      simp only [b64Alphabet, List.length_cons, List.length_nil]
      omega
    rw [hd]
    decide

theorem b64_no_dot : ∀ bs : List Nat, '.' ∉ b64uEncode bs
  | [] => by simp [b64uEncode]
  | [b1] => by
    simp only [b64uEncode, List.mem_cons, List.not_mem_nil, or_false]
    push_neg
    exact ⟨fun h => b64Char_ne_dot _ h.symm, fun h => b64Char_ne_dot _ h.symm⟩
  | [b1, b2] => by
    simp only [b64uEncode, List.mem_cons, List.not_mem_nil, or_false]
    push_neg
    exact ⟨fun h => b64Char_ne_dot _ h.symm, fun h => b64Char_ne_dot _ h.symm,
      fun h => b64Char_ne_dot _ h.symm⟩
  | b1 :: b2 :: b3 :: rest => by
    have ih := b64_no_dot rest
    simp only [b64uEncode, List.mem_cons]
    push_neg
    exact ⟨fun h => b64Char_ne_dot _ h.symm, fun h => b64Char_ne_dot _ h.symm,
      fun h => b64Char_ne_dot _ h.symm, fun h => b64Char_ne_dot _ h.symm, ih⟩

theorem b64uEncode_ne_nil : ∀ bs : List Nat, bs ≠ [] → b64uEncode bs ≠ []
  | [], h => absurd rfl h
  | [_], _ => by simp [b64uEncode]
  | [_, _], _ => by simp [b64uEncode]
  | _ :: _ :: _ :: _, _ => by simp [b64uEncode]

theorem b64_roundtrip : ∀ bs : List Nat, (∀ b ∈ bs, b < 256) →
    b64uDecode (b64uEncode bs) = some bs
  | [], _ => rfl
  | [b1], h => by
    have h1 : b1 < 256 := h b1 (by simp)
    have e1 : b64Index (b64Char (b1 / 4)) = some (b1 / 4) :=
      b64Index_b64Char _ (by omega)
    have e2 : b64Index (b64Char (b1 % 4 * 16)) = some (b1 % 4 * 16) :=
      b64Index_b64Char _ (by omega)
    simp [b64uEncode, b64uDecode, e1, e2]
    omega
  | [b1, b2], h => by
    have h1 : b1 < 256 := h b1 (by simp)
    have h2 : b2 < 256 := h b2 (by simp)
    have e1 : b64Index (b64Char (b1 / 4)) = some (b1 / 4) :=
      b64Index_b64Char _ (by omega)
    have e2 : b64Index (b64Char (b1 % 4 * 16 + b2 / 16)) =
        some (b1 % 4 * 16 + b2 / 16) := b64Index_b64Char _ (by omega)
    have e3 : b64Index (b64Char (b2 % 16 * 4)) = some (b2 % 16 * 4) :=
      b64Index_b64Char _ (by omega)
    simp [b64uEncode, b64uDecode, e1, e2, e3]
    omega
  | b1 :: b2 :: b3 :: rest, h => by
    have h1 : b1 < 256 := h b1 (by simp)
    have h2 : b2 < 256 := h b2 (by simp)
    have h3 : b3 < 256 := h b3 (by simp)
    have ih := b64_roundtrip rest (fun b hb => h b (by simp [hb]))
    have e1 : b64Index (b64Char (b1 / 4)) = some (b1 / 4) :=
      b64Index_b64Char _ (by omega)
    have e2 : b64Index (b64Char (b1 % 4 * 16 + b2 / 16)) =
        some (b1 % 4 * 16 + b2 / 16) := b64Index_b64Char _ (by omega)
    have e3 : b64Index (b64Char (b2 % 16 * 4 + b3 / 64)) =
        some (b2 % 16 * 4 + b3 / 64) := b64Index_b64Char _ (by omega)
    have e4 : b64Index (b64Char (b3 % 64)) = some (b3 % 64) :=
      b64Index_b64Char _ (by omega)
    simp [b64uEncode, b64uDecode, e1, e2, e3, e4, ih]
    omega

-- Decimal rendering lemmas

theorem natRenderFuel_congr (n f g : Nat) (hf : n < f) (hg : n < g) :
    natRenderFuel f n = natRenderFuel g n := by
  cases f with
  | zero => omega
  | succ f' =>
    cases g with
    | zero => omega
    | succ g' =>
      by_cases h10 : n < 10
      · simp [natRenderFuel, h10]
      · have hdiv : n / 10 < n := Nat.div_lt_self (by omega) (by omega)
        simp only [natRenderFuel, h10, if_false]
        rw [natRenderFuel_congr (n / 10) f' g' (by omega) (by omega)]
termination_by f

theorem natRender_eq (n : Nat) :
    natRender n =
      if n < 10 then [digitByte n]
      else natRender (n / 10) ++ [digitByte (n % 10)] := by
  by_cases h10 : n < 10
  · simp [natRender, natRenderFuel, h10]
  · have hdiv : n / 10 < n := Nat.div_lt_self (by omega) (by omega)
    simp only [natRender, natRenderFuel, h10, if_false]
    rw [natRenderFuel_congr (n / 10) n (n / 10 + 1) (by omega) (by omega)]
    simp only [natRenderFuel]

theorem digitVal_digitByte (d : Nat) (h : d < 10) :
    digitVal (digitByte d) = some d := by
  unfold digitVal digitByte
  rw [if_pos (by omega : 48 ≤ 48 + d ∧ 48 + d ≤ 57)]
  congr 1
  omega

theorem digitsParseAux_append (n : Nat) : ∀ (acc : Nat) (tail : List Nat),
    digitsParseAux (natRender n ++ tail) acc =
      digitsParseAux tail (acc * 10 ^ (natRender n).length + n) := by
  intro acc tail
  rw [natRender_eq n]
  by_cases h10 : n < 10
  · simp only [if_pos h10]
    simp [digitsParseAux, digitVal_digitByte n h10]
  · simp only [if_neg h10]
    have hdiv : n / 10 < n := Nat.div_lt_self (by omega) (by omega)
    rw [List.append_assoc]
    rw [digitsParseAux_append (n / 10) acc ([digitByte (n % 10)] ++ tail)]
    have hstep : digitsParseAux ([digitByte (n % 10)] ++ tail)
        (acc * 10 ^ (natRender (n / 10)).length + n / 10) =
        digitsParseAux tail
          ((acc * 10 ^ (natRender (n / 10)).length + n / 10) * 10 + n % 10) := by
      simp [digitsParseAux, digitVal_digitByte (n % 10) (by omega)]
    rw [hstep]
    congr 1
    have hmod : n / 10 * 10 + n % 10 = n := by omega
    calc (acc * 10 ^ (natRender (n / 10)).length + n / 10) * 10 + n % 10
        = acc * (10 ^ (natRender (n / 10)).length * 10) +
            (n / 10 * 10 + n % 10) := by ring
      _ = acc * 10 ^ ((natRender (n / 10)).length + 1) + n := by
          rw [hmod, pow_succ]
      _ = acc * 10 ^ (natRender (n / 10) ++ [digitByte (n % 10)]).length + n := by
          simp [List.length_append]
termination_by n

theorem natRender_ne_nil (n : Nat) : natRender n ≠ [] := by
  rw [natRender_eq n]
  by_cases h10 : n < 10 <;> simp [h10]

theorem natParse_natRender (n : Nat) : natParse (natRender n) = some n := by
  have h := digitsParseAux_append n 0 []
  rw [List.append_nil] at h
  obtain ⟨c, cs, hcc⟩ : ∃ c cs, natRender n = c :: cs := by
    cases hnr : natRender n with
    | nil => exact absurd hnr (natRender_ne_nil n)
    | cons c cs => exact ⟨c, cs, rfl⟩
  rw [hcc] at h
  rw [hcc]
  rw [show natParse (c :: cs) = digitsParseAux (c :: cs) 0 from rfl]
  rw [h]
  simp [digitsParseAux]

theorem tsParse_tsRender (t : Int) : tsParse (tsRender t) = some t := by
  unfold tsRender
  by_cases ht : 0 ≤ t
  · rw [if_pos ht]
    rw [show tsParse (43 :: natRender t.natAbs) =
      (natParse (natRender t.natAbs)).map (fun n => (n : Int)) from rfl]
    rw [natParse_natRender]
    have habs : ((t.natAbs : Nat) : Int) = t := by omega
    simp [habs]
  · rw [if_neg ht]
    rw [show tsParse (45 :: natRender t.natAbs) =
      (natParse (natRender t.natAbs)).map (fun n => -(n : Int)) from rfl]
    rw [natParse_natRender]
    simp [abs_of_nonpos (show t ≤ 0 from by omega)]

theorem natRender_mem_range (n : Nat) : ∀ b ∈ natRender n, 48 ≤ b ∧ b ≤ 57 := by
  rw [natRender_eq n]
  by_cases h10 : n < 10
  · simp only [if_pos h10]
    intro b hb
    simp at hb
    subst hb
    unfold digitByte
    omega
  · have hdiv : n / 10 < n := Nat.div_lt_self (by omega) (by omega)
    simp only [if_neg h10]
    intro b hb
    rcases List.mem_append.mp hb with hm | hm
    · exact natRender_mem_range (n / 10) b hm
    · simp at hm
      subst hm
      unfold digitByte
      omega
termination_by n

theorem tsRender_lt_256 (t : Int) : ∀ b ∈ tsRender t, b < 256 := by
  unfold tsRender
  intro b hb
  rcases List.mem_cons.mp hb with h | h
  · split at h <;> omega
  · have := natRender_mem_range t.natAbs b h
    omega

theorem tsRender_ne_nil (t : Int) : tsRender t ≠ [] := by
  unfold tsRender
  simp

-- splitDots lemmas

theorem splitDots_no_dot (s : List Char) (h : '.' ∉ s) : splitDots s = [s] := by
  induction s with
  | nil => rfl
  | cons c cs ih =>
    have hc : c ≠ '.' := fun e => h (by simp [e])
    have hcs : '.' ∉ cs := fun m => h (List.mem_cons_of_mem _ m)
    simp [splitDots, hc, ih hcs]

theorem splitDots_append (s rest : List Char) (h : '.' ∉ s) :
    splitDots (s ++ '.' :: rest) = s :: splitDots rest := by
  induction s with
  | nil => simp [splitDots]
  | cons c cs ih =>
    have hc : c ≠ '.' := fun e => h (by simp [e])
    have hcs : '.' ∉ cs := fun m => h (List.mem_cons_of_mem _ m)
    simp [splitDots, hc, ih hcs]

-- Token parsing and validation lemmas

theorem signToken_ne_nil (key pepper : List Nat) (s1 s2 : List Char) :
    signToken key pepper s1 s2 ≠ [] := by
  simp [signToken, macModel]

theorem parse_token_eq3 (cs s1 s2 s3 : List Char)
    (h : splitDots cs = [s1, s2, s3]) :
    parse_token cs =
      if s1 = [] ∨ s2 = [] ∨ s3 = [] then .error .InvalidFormat
      else
        match b64uDecode s1 with
        | none => .error .CannotDecodeIdent
        | some ident =>
          match b64uDecode s2 with
          | none => .error .CannotDecodeExp
          | some expBytes =>
            match tsParse expBytes with
            | none => .error .ExpNotIso
            | some exp => .ok (ident, exp, s1, s2, s3) := by
  unfold parse_token
  rw [h]

theorem validate_token_of_parse_error (key pepper : List Nat) (cs : List Char)
    (now : Int) (e : TokenError) (h : parse_token cs = .error e) :
    validate_token key pepper cs now = .error e := by
  unfold validate_token
  rw [h]

/-- Every split of a token text into three segments with one of them empty, or into a different number of segments, is a structural InvalidFormat failure. -/
def threeNonempty : List (List Char) → Bool
  | [s1, s2, s3] => !s1.isEmpty && !s2.isEmpty && !s3.isEmpty
  | _ => false

theorem parse_token_invalid (cs : List Char)
    (h : threeNonempty (splitDots cs) = false) :
    parse_token cs = .error .InvalidFormat := by
  unfold parse_token
  split
  next s1 s2 s3 heq =>
    rw [heq] at h
    simp [threeNonempty] at h
    rw [if_pos]
    by_cases h1 : s1 = []
    · exact Or.inl h1
    · by_cases h2 : s2 = []
      · exact Or.inr (Or.inl h2)
      · exact Or.inr (Or.inr (h h1 h2))
  next => rfl

theorem parse_token_error_cases (cs : List Char) (e : TokenError)
    (h : parse_token cs = .error e) :
    e = .InvalidFormat ∨ e = .CannotDecodeIdent ∨ e = .CannotDecodeExp ∨
      e = .ExpNotIso := by
  unfold parse_token at h
  split at h
  · split at h
    · simp_all
    · split at h
      · simp_all
      · split at h
        · simp_all
        · split at h
          · simp_all
          · simp_all
  · simp_all

/-- Claim C3: for every input (token text, pepper, key, now), token validation is a total function terminating in success or exactly one of the six per-request error kinds InvalidFormat, CannotDecodeIdent, CannotDecodeExp, ExpNotIso, SignatureNotMatching, Expired; in particular the key-construction kind HmacFailNewFromSlice never escapes, and malformed input cannot panic (the embedding is a total function). -/
theorem claim3_validate_token_total :
    ∀ (key pepper : List Nat) (cs : List Char) (now : Int),
      validate_token key pepper cs now = .ok () ∨
      validate_token key pepper cs now = .error .InvalidFormat ∨
      validate_token key pepper cs now = .error .CannotDecodeIdent ∨
      validate_token key pepper cs now = .error .CannotDecodeExp ∨
      validate_token key pepper cs now = .error .ExpNotIso ∨
      validate_token key pepper cs now = .error .SignatureNotMatching ∨
      validate_token key pepper cs now = .error .Expired := by
  intro key pepper cs now
  unfold validate_token
  cases hp : parse_token cs with
  | error e =>
    have he := parse_token_error_cases cs e hp
    rcases he with h | h | h | h <;> subst h <;> simp
  | ok val =>
    obtain ⟨ident, exp, s1, s2, s3⟩ := val
    by_cases hsig : b64uEncode (signToken key pepper s1 s2) = s3
    · by_cases hexp : exp < now
      · simp [hsig, hexp]
      · simp [hsig, hexp]
    · simp [hsig]

/-- Claim C4: validation checks the signature before the expiration - on any structurally valid token a signature mismatch yields SignatureNotMatching regardless of now, Expired arises only with a matching signature and now strictly past the expiration, and a matching signature with now at or before the expiration succeeds. -/
theorem claim4_sig_before_exp (key pepper : List Nat) (cs : List Char) (now : Int)
    (ident : List Nat) (exp : Int) (s1 s2 s3 : List Char)
    (h : parse_token cs = .ok (ident, exp, s1, s2, s3)) :
    (b64uEncode (signToken key pepper s1 s2) ≠ s3 →
      validate_token key pepper cs now = .error .SignatureNotMatching) ∧
    (b64uEncode (signToken key pepper s1 s2) = s3 → exp < now →
      validate_token key pepper cs now = .error .Expired) ∧
    (b64uEncode (signToken key pepper s1 s2) = s3 → now ≤ exp →
      validate_token key pepper cs now = .ok ()) := by
  unfold validate_token
  rw [h]
  refine ⟨fun hs => by simp [hs], fun hs hx => by simp [hs, hx],
    fun hs hx => by simp [hs, not_lt.mpr hx]⟩

theorem claim4_sig_before_exp_witness :
    validate_token [7] [9] ("QQ.KzA.AA".data) 99 = .error .SignatureNotMatching := by
  have h : parse_token ("QQ.KzA.AA".data) =
      .ok ([65], 0, "QQ".data, "KzA".data, "AA".data) := by rfl
  exact (claim4_sig_before_exp [7] [9] ("QQ.KzA.AA".data) 99 [65] 0
    ("QQ".data) ("KzA".data) ("AA".data) h).1 (by decide)

/-- Claim C6: any token text that does not split on the delimiter into exactly 3 non-empty segments is rejected with InvalidFormat; in particular the texts "abc" (no delimiter) and "a.b.c.d" (four segments). -/
theorem claim6_invalid_format :
    (∀ (key pepper : List Nat) (now : Int) (cs : List Char),
      threeNonempty (splitDots cs) = false →
      validate_token key pepper cs now = .error .InvalidFormat) ∧
    (∀ (key pepper : List Nat) (now : Int),
      validate_token key pepper ("abc".data) now = .error .InvalidFormat) ∧
    (∀ (key pepper : List Nat) (now : Int),
      validate_token key pepper ("a.b.c.d".data) now = .error .InvalidFormat) := by
  refine ⟨?_, ?_, ?_⟩
  · intro key pepper now cs h
    exact validate_token_of_parse_error _ _ _ _ _ (parse_token_invalid cs h)
  · intro key pepper now
    exact validate_token_of_parse_error _ _ _ _ _
      (parse_token_invalid ("abc".data) (by decide))
  · intro key pepper now
    exact validate_token_of_parse_error _ _ _ _ _
      (parse_token_invalid ("a.b.c.d".data) (by decide))

theorem claim6_invalid_format_witness :
    validate_token [] [] ("a..b".data) 0 = .error .InvalidFormat :=
  claim6_invalid_format.1 [] [] 0 ("a..b".data) (by decide)

-- Claim C7: token codec round-trip

/-- Claim C7 counterexample: the claim quantifies over every identifier, but generating a token for the empty identifier produces an empty first segment, which the structural rule (exactly 3 non-empty segments) rejects with InvalidFormat instead of round-tripping. -/
theorem claim7_empty_ident_counterexample :
    parse_token (generate_token [] [] [] 0 0) = .error .InvalidFormat := by rfl

/-- Claim C7 (amended): for every non-empty identifier (as a byte list), any ttl, pepper and key, parsing the generated token text recovers exactly the identifier and the expiration now + ttl (the timestamp codec is exact in this model), together with the three assembled segments. -/
theorem claim7_roundtrip_amended (key pepper ident : List Nat) (ttl now : Int)
    (hb : ∀ b ∈ ident, b < 256) (hne : ident ≠ []) :
    parse_token (generate_token key pepper ident ttl now) =
      .ok (ident, now + ttl, b64uEncode ident,
        b64uEncode (tsRender (now + ttl)),
        b64uEncode (signToken key pepper (b64uEncode ident)
          (b64uEncode (tsRender (now + ttl))))) := by
  have hd1 : '.' ∉ b64uEncode ident := b64_no_dot ident
  have hd2 : '.' ∉ b64uEncode (tsRender (now + ttl)) := b64_no_dot _
  have hsplit : splitDots (generate_token key pepper ident ttl now) =
      [b64uEncode ident, b64uEncode (tsRender (now + ttl)),
        b64uEncode (signToken key pepper (b64uEncode ident)
          (b64uEncode (tsRender (now + ttl))))] := by
    unfold generate_token
    rw [List.append_assoc, List.cons_append]
    rw [splitDots_append _ _ hd1, splitDots_append _ _ hd2,
      splitDots_no_dot _ (b64_no_dot _)]
  rw [parse_token_eq3 _ _ _ _ hsplit]
  rw [if_neg (by
    simp [b64uEncode_ne_nil ident hne,
      b64uEncode_ne_nil _ (tsRender_ne_nil (now + ttl)),
      b64uEncode_ne_nil _ (signToken_ne_nil key pepper _ _)])]
  simp [b64_roundtrip ident hb, b64_roundtrip _ (tsRender_lt_256 (now + ttl)),
    tsParse_tsRender]

theorem claim7_roundtrip_amended_witness :
    parse_token (generate_token [1] [2] [65] 60 100) =
      .ok ([65], 100 + 60, b64uEncode [65], b64uEncode (tsRender (100 + 60)),
        b64uEncode (signToken [1] [2] (b64uEncode [65])
          (b64uEncode (tsRender (100 + 60))))) :=
  claim7_roundtrip_amended [1] [2] [65] 60 100 (by decide) (by decide)

-- Web-server glue (embedded from src/)

/-- Embedded from src/crates/services/web-server/src/web/routes_ws.rs: a WebSocket event. -/
structure WsEvent where
  event_type : String
  channel : String
  payload : String

/-- Embedded from routes_ws.rs: a broadcast-channel send returns an error when there are no subscribers, else the receiver count. -/
def sendEvent (subscribers : Nat) (ev : WsEvent) : Except WsEvent Nat :=
  if subscribers = 0 then .error ev else .ok subscribers

/-- Embedded from routes_ws.rs WsState::broadcast: the send result is discarded, so broadcasting always returns unit whatever the subscriber count. -/
def wsBroadcast (subscribers : Nat) (ev : WsEvent) : Unit :=
  let _ := sendEvent subscribers ev
  ()

/-- Embedded from routes_ws.rs WsState::broadcast_conv_msg. -/
def broadcastConvMsg (subscribers : Nat) (convId : Int) (payload : String) : Unit :=
  wsBroadcast subscribers
    { event_type := "conv_msg", channel := "conv:" ++ toString convId,
      payload := payload }

/-- Embedded from the lib-core ConvMsg shape as used by conv_rpc.rs. -/
structure ConvMsg where
  id : Int
  conv_id : Int
  content : String

deriving instance DecidableEq for ConvMsg

/-- Embedded from src/crates/services/web-server/src/web/rpcs/conv_rpc.rs add_conv_msg: create the message, re-read it, broadcast the serialized payload only when serialization succeeds (the broadcast is skipped when it fails), and return the re-read message. The model-layer calls and the serializer are passed in as oracles. -/
def add_conv_msg {ε : Type} (addMsg : Except ε Int)
    (getMsg : Int → Except ε ConvMsg) (toValue : ConvMsg → Option String)
    (subscribers : Nat) (convId : Int) : Except ε ConvMsg :=
  match addMsg with
  | .error e => .error e
  | .ok msgId =>
    match getMsg msgId with
    | .error e => .error e
    | .ok msg =>
      let _ := match toValue msg with
        | some payload => broadcastConvMsg subscribers convId payload
        | none => ()
      .ok msg

/-- Claim C10: when creating and re-reading the message both succeed, add_conv_msg returns Ok with that message for every serializer outcome - a broadcast-serialization failure never turns the RPC result into an error - and the broadcast itself is fire-and-forget: send errors from having no subscribers are discarded. -/
theorem claim10_add_conv_msg_ok {ε : Type} (addMsg : Except ε Int)
    (getMsg : Int → Except ε ConvMsg) (toValue : ConvMsg → Option String)
    (subscribers : Nat) (convId : Int) (i : Int) (m : ConvMsg)
    (h1 : addMsg = .ok i) (h2 : getMsg i = .ok m) :
    add_conv_msg addMsg getMsg toValue subscribers convId = .ok m ∧
    (∀ (n : Nat) (ev : WsEvent), wsBroadcast n ev = ()) := by
  subst h1
  constructor
  · simp [add_conv_msg, h2]
  · intro n ev
    rfl

theorem claim10_add_conv_msg_ok_witness :
    add_conv_msg (Except.ok 1 : Except String Int)
      (fun _ => Except.ok ⟨1, 2, "hello"⟩) (fun _ => none) 0 2 =
      Except.ok (⟨1, 2, "hello"⟩ : ConvMsg) :=
  (claim10_add_conv_msg_ok (Except.ok 1 : Except String Int)
    (fun _ => Except.ok ⟨1, 2, "hello"⟩) (fun _ => none) 0 2 1
    ⟨1, 2, "hello"⟩ rfl rfl).1
